import Mathlib

set_option maxRecDepth 8000

/- Shallow embedding of the streaming/tool-execution core of the agent700-cli
repository: src/a700cli/core/mcp.py, src/a700cli/core/models.py,
src/a700cli/core/client.py and the transport-selection logic of
src/a700cli/__main__.py. Strings are modelled as Lean String values, Python
dicts decoded from JSON as association lists in source order, and fallible
collaborator calls (socket connect/emit, requests.post, conversation
persistence) as explicit outcome parameters. -/

/-- JSON values as produced by json.loads; numbers keep their source lexeme,
objects are association lists in source order. -/
inductive JsonVal where
  | null : JsonVal
  | jbool : Bool → JsonVal
  | jnum : String → JsonVal
  | jstr : String → JsonVal
  | jarr : List JsonVal → JsonVal
  | jobj : List (String × JsonVal) → JsonVal

/-- Character comparison used by the re.IGNORECASE patterns of mcp.py. -/
def charEqCI (a b : Char) : Bool := a.toLower == b.toLower

/-- Does s start with pat, comparing characters with eq? -/
def beginsWithBy (eq : Char → Char → Bool) : List Char → List Char → Bool
  | [], _ => true
  | _ :: _, [] => false
  | p :: ps, c :: cs => eq p c && beginsWithBy eq ps cs

/-- First occurrence of pat inside s under eq: returns the text before the
match, the matched text (original characters), and the text after it. -/
def splitAtSubBy (eq : Char → Char → Bool) (pat : List Char) :
    List Char → Option (List Char × List Char × List Char)
  | [] => if beginsWithBy eq pat [] then some ([], [], []) else none
  | c :: cs =>
    if beginsWithBy eq pat (c :: cs) then
      some ([], (c :: cs).take pat.length, (c :: cs).drop pat.length)
    else
      match splitAtSubBy eq pat cs with
      | some (b, m, a) => some (c :: b, m, a)
      | none => none

/-- Python str.strip(): drop leading and trailing whitespace. -/
def pyStrip (s : List Char) : List Char :=
  ((s.dropWhile Char.isWhitespace).reverse.dropWhile Char.isWhitespace).reverse

def toolUseOpen : List Char := "<tool_use>".data

def toolUseClose : List Char := "</tool_use>".data

/-- re.findall of TOOL_USE_PATTERN, the non-greedy case-insensitive pattern
over [\s\S]: the leftmost open marker that has a close marker after it starts a
match, which ends at the first such close marker; scanning resumes after the
match. Fuel bounds the number of blocks; every found block consumes both
markers (21 characters), so length + 1 fuel never runs out. -/
def findBlocksAux : Nat → List Char → List (List Char)
  | 0, _ => []
  | Nat.succ fuel, s =>
    match splitAtSubBy charEqCI toolUseOpen s with
    | none => []
    | some (_, mo, afterOpen) =>
      match splitAtSubBy charEqCI toolUseClose afterOpen with
      | none => []
      | some (mid, mc, rest) => (mo ++ mid ++ mc) :: findBlocksAux fuel rest

def findToolUseBlocks (s : List Char) : List (List Char) :=
  findBlocksAux (s.length + 1) s

/-- mcp.py _extract_tag: first case-insensitive non-greedy match of the
sub-tag pattern inside the block, group(1) stripped; "" when absent. -/
def extractTag (block : List Char) (tag : String) : List Char :=
  match splitAtSubBy charEqCI ("<" ++ tag ++ ">").data block with
  | none => []
  | some (_, _, afterOpen) =>
    match splitAtSubBy charEqCI ("</" ++ tag ++ ">").data afterOpen with
    | none => []
    | some (mid, _, _) => pyStrip mid

/-- Whitespace accepted between JSON tokens by json.loads. -/
def jsonWs (c : Char) : Bool := c == ' ' || c == '\t' || c == '\n' || c == '\r'

def skipWs (s : List Char) : List Char := s.dropWhile jsonWs

def isHexDigitCh (c : Char) : Bool :=
  c.isDigit || ('a' ≤ c && c ≤ 'f') || ('A' ≤ c && c ≤ 'F')

def hexVal (c : Char) : Nat :=
  if c.isDigit then c.toNat - '0'.toNat
  else if 'a' ≤ c && c ≤ 'f' then c.toNat - 'a'.toNat + 10
  else c.toNat - 'A'.toNat + 10

/-- Body of a JSON string after the opening quote: returns the decoded content
and the rest after the closing quote. Unknown escapes and unescaped control
characters are rejected, as in the strict json.loads decoder. -/
def parseStringBody : List Char → Option (List Char × List Char)
  | [] => none
  | '"' :: r => some ([], r)
  | '\\' :: e :: r =>
    if e == 'u' then
      match r with
      | d1 :: d2 :: d3 :: d4 :: r2 =>
        if isHexDigitCh d1 && isHexDigitCh d2 && isHexDigitCh d3 && isHexDigitCh d4 then
          match parseStringBody r2 with
          | some (t, rest) =>
            some (Char.ofNat (((hexVal d1 * 16 + hexVal d2) * 16 + hexVal d3) * 16
                    + hexVal d4) :: t, rest)
          | none => none
        else none
      | _ => none
    else
      match (if e == '"' then some '"' else if e == '\\' then some '\\'
             else if e == '/' then some '/' else if e == 'b' then some (Char.ofNat 8)
             else if e == 'f' then some (Char.ofNat 12) else if e == 'n' then some '\n'
             else if e == 'r' then some '\r' else if e == 't' then some '\t'
             else none) with
      | some c =>
        match parseStringBody r with
        | some (t, rest) => some (c :: t, rest)
        | none => none
      | none => none
  | c :: r =>
    if c.toNat < 32 then none
    else
      match parseStringBody r with
      | some (t, rest) => some (c :: t, rest)
      | none => none

/-- Longest leading run of decimal digits. -/
def takeDigits : List Char → List Char × List Char
  | [] => ([], [])
  | c :: cs =>
    if c.isDigit then
      let (d, r) := takeDigits cs
      (c :: d, r)
    else ([], c :: cs)

/-- JSON integer part: 0 or a nonzero digit followed by digits. -/
def parseIntPart : List Char → Option (List Char × List Char)
  | [] => none
  | c :: cs =>
    if c == '0' then some ([c], cs)
    else if c.isDigit then
      let (d, r) := takeDigits cs
      some (c :: d, r)
    else none

/-- Optional JSON fraction part. -/
def parseFracPart : List Char → Option (List Char × List Char)
  | '.' :: cs =>
    match takeDigits cs with
    | ([], _) => none
    | (d, r) => some ('.' :: d, r)
  | s => some ([], s)

/-- Optional JSON exponent part. -/
def parseExpPart : List Char → Option (List Char × List Char)
  | [] => some ([], [])
  | c :: cs =>
    if c == 'e' || c == 'E' then
      match cs with
      | [] => none
      | sgn :: cs2 =>
        if sgn == '+' || sgn == '-' then
          match takeDigits cs2 with
          | ([], _) => none
          | (d, r) => some (c :: sgn :: d, r)
        else
          match takeDigits (sgn :: cs2) with
          | ([], _) => none
          | (d, r) => some (c :: d, r)
    else some ([], c :: cs)

def parseNumTail (intPart : List Char) (r : List Char) :
    Option (List Char × List Char) :=
  match parseFracPart r with
  | none => none
  | some (f, r2) =>
    match parseExpPart r2 with
    | none => none
    | some (g, r3) => some (intPart ++ f ++ g, r3)

/-- JSON number lexeme and the rest of the input. -/
def parseNumber : List Char → Option (List Char × List Char)
  | '-' :: cs =>
    match parseIntPart cs with
    | none => none
    | some (i, r) => parseNumTail ('-' :: i) r
  | s =>
    match parseIntPart s with
    | none => none
    | some (i, r) => parseNumTail i r

mutual

/-- One JSON value with leading whitespace skipped; fuel strictly decreases at
each nesting or element step, each of which consumes input characters. -/
def parseValue : Nat → List Char → Option (JsonVal × List Char)
  | 0, _ => none
  | Nat.succ fuel, s =>
    match skipWs s with
    | [] => none
    | '"' :: cs =>
      match parseStringBody cs with
      | some (t, r) => some (.jstr ⟨t⟩, r)
      | none => none
    | '[' :: cs =>
      match skipWs cs with
      | ']' :: r => some (.jarr [], r)
      | _ =>
        match parseElems fuel cs with
        | some (xs, r) => some (.jarr xs, r)
        | none => none
    | '\x7b' :: cs =>
      match skipWs cs with
      | '\x7d' :: r => some (.jobj [], r)
      | _ =>
        match parseMembers fuel cs with
        | some (kvs, r) => some (.jobj kvs, r)
        | none => none
    | c :: cs =>
      if c == 't' then
        if beginsWithBy (· == ·) "rue".data cs then some (.jbool true, cs.drop 3)
        else none
      else if c == 'f' then
        if beginsWithBy (· == ·) "alse".data cs then some (.jbool false, cs.drop 4)
        else none
      else if c == 'n' then
        if beginsWithBy (· == ·) "ull".data cs then some (.null, cs.drop 3)
        else none
      else if c == '-' || c.isDigit then
        match parseNumber (c :: cs) with
        | some (lex, r) => some (.jnum ⟨lex⟩, r)
        | none => none
      else none

/-- Comma-separated array elements up to the closing bracket. -/
def parseElems : Nat → List Char → Option (List JsonVal × List Char)
  | 0, _ => none
  | Nat.succ fuel, s =>
    match parseValue fuel s with
    | none => none
    | some (v, r) =>
      match skipWs r with
      | ',' :: r2 =>
        match parseElems fuel r2 with
        | some (xs, r3) => some (v :: xs, r3)
        | none => none
      | ']' :: r2 => some ([v], r2)
      | _ => none

/-- Comma-separated object members up to the closing brace. -/
def parseMembers : Nat → List Char → Option (List (String × JsonVal) × List Char)
  | 0, _ => none
  | Nat.succ fuel, s =>
    match skipWs s with
    | '"' :: cs =>
      match parseStringBody cs with
      | none => none
      | some (k, r) =>
        match skipWs r with
        | ':' :: r2 =>
          match parseValue fuel r2 with
          | none => none
          | some (v, r3) =>
            match skipWs r3 with
            | ',' :: r4 =>
              match parseMembers fuel r4 with
              | some (kvs, r5) => some ((⟨k⟩, v) :: kvs, r5)
              | none => none
            | '\x7d' :: r4 => some ([(⟨k⟩, v)], r4)
            | _ => none
        | _ => none
    | _ => none

end

/-- json.loads on a whole document; none models a raised JSONDecodeError. -/
def jsonLoads (s : String) : Option JsonVal :=
  match parseValue (s.data.length + 1) s.data with
  | some (v, r) => if (skipWs r).isEmpty then some v else none
  | none => none

/-- models.py ToolCall; arguments holds the decoded JSON object as an
association list. -/
structure ToolCall where
  server : String
  tool : String
  arguments : List (String × JsonVal)
  id : Option String := none

/-- mcp.py _parse_one_block; none models the ValueError raised on a missing
server or tool field, which the caller catches and turns into a skip. -/
def parse_one_block (block : List Char) : Option ToolCall :=
  let server := extractTag block "server"
  let tool := extractTag block "tool"
  let argsRaw := extractTag block "arguments"
  let callId := extractTag block "id"
  if server.isEmpty || tool.isEmpty then none
  else
    let arguments : List (String × JsonVal) :=
      if argsRaw.isEmpty then []
      else
        match jsonLoads ⟨pyStrip argsRaw⟩ with
        | some (.jobj kvs) => kvs
        | some _ => [("raw", .jstr ⟨argsRaw⟩)]
        | none => [("raw", .jstr ⟨argsRaw⟩)]
    some { server := ⟨server⟩, tool := ⟨tool⟩, arguments := arguments,
           id := if callId.isEmpty then none else some ⟨callId⟩ }

/-- mcp.py parse_tool_use_blocks: findall over TOOL_USE_PATTERN, each block
parsed with the per-block ValueError caught and the block skipped. -/
def parse_tool_use_blocks (content : String) : List ToolCall :=
  (findToolUseBlocks content.data).filterMap parse_one_block

/-- A block is well-formed when it carries non-empty server and tool fields
(the condition under which _parse_one_block does not raise). -/
def wellFormedBlock (block : List Char) : Bool :=
  !(extractTag block "server").isEmpty && !(extractTag block "tool").isEmpty

/-- The ToolCall built from a block by the success branch of _parse_one_block. -/
def blockToolCall (block : List Char) : ToolCall :=
  let argsRaw := extractTag block "arguments"
  let callId := extractTag block "id"
  { server := ⟨extractTag block "server"⟩
    tool := ⟨extractTag block "tool"⟩
    arguments :=
      if argsRaw.isEmpty then []
      else
        match jsonLoads ⟨pyStrip argsRaw⟩ with
        | some (.jobj kvs) => kvs
        | some _ => [("raw", .jstr ⟨argsRaw⟩)]
        | none => [("raw", .jstr ⟨argsRaw⟩)]
    id := if callId.isEmpty then none else some ⟨callId⟩ }

/-- Python str.rstrip of the slash character: drop every trailing slash. -/
def rstripSlash (s : List Char) : List Char :=
  (s.reverse.dropWhile (· == '/')).reverse

/-- Python str.endswith. -/
def endsWithL (s suf : List Char) : Bool :=
  beginsWithBy (· == ·) suf.reverse s.reverse

/-- McpExecutor.__init__ normalization of api_base_url: strip trailing
slashes, then append the api path segment unless already present. -/
def mcpNormalizeBase (api_base_url : String) : String :=
  let b := rstripSlash api_base_url.data
  if endsWithL b "/api".data then ⟨b⟩
  else if endsWithL b "/".data then ⟨b ++ "api".data⟩
  else ⟨b ++ "/api".data⟩

/-- The URL _call_remote_mcp posts to. -/
def mcpExecuteUrl (api_base_url : String) : String :=
  ⟨(mcpNormalizeBase api_base_url).data ++ "/mcp/execute".data⟩

/-- Outcome of requests.post as seen by _call_remote_mcp: the error carries the
message of a raised transport exception; body models resp.json(), whose error
side is the message of the decode exception it may raise. -/
structure HttpResp where
  status : Int
  text : String
  body : Except String JsonVal

/-- mcp.py _call_remote_mcp after the POST outcome is known. Total: every
exception inside the call is caught and converted to an error dict, so
McpExecutor.execute (which just delegates here) never raises. -/
def call_remote_mcp (net : Except String HttpResp) : List (String × JsonVal) :=
  match net with
  | .error e => [("error", .jstr e)]
  | .ok r =>
    if r.status = 200 then
      match r.body with
      | .ok d =>
        match d with
        | .jobj kvs => kvs
        | _ => [("result", d)]
      | .error e => [("error", .jstr e)]
    else
      [("error", .jstr ("HTTP " ++ toString r.status)), ("detail", .jstr r.text)]

/-- models.py AgentResponse with the defaults filled in by __post_init__. -/
structure AgentResponse where
  content : String
  citations : List String := []
  error : Option String := none
  mcp_results : List JsonVal := []

/-- Inbound events consumed by the WebSocketClient handlers of client.py.
The payload of the error event is collapsed to the message string the on_error
handler derives from it, which no claim inspects further. -/
inductive InEvent where
  | chat (content : String) (finishReason : Option String) (citations : List String)
  | toolComplete (resultBlock : JsonVal)
  | errEvent (message : String)
  | disconnectEvt

/-- Mutable fields of WebSocketClient during one exchange; eventSet is the
threading.Event flag that releases send_message's wait. -/
structure WsState where
  response_complete : Bool
  full_response : String
  citations : List String
  mcp_results : List JsonVal
  error_occurred : Bool
  error_message : String
  eventSet : Bool

/-- State after the reset at the top of send_message (with response_event
cleared). -/
def wsInitState : WsState :=
  { response_complete := false, full_response := "", citations := []
    mcp_results := [], error_occurred := false, error_message := ""
    eventSet := false }

/-- on_mcp_tool_complete result_block handling: a list with a JSON-decodable
second element yields the decoded value, anything else is wrapped raw. The
wrapping of a non-string second element models the TypeError raised by
json.loads there and caught by the bare except. -/
def parseResultBlock (rb : JsonVal) : JsonVal :=
  match rb with
  | .jarr xs =>
    if xs.length > 1 then
      match xs.drop 1 with
      | .jstr s :: _ =>
        match jsonLoads s with
        | some v => v
        | none => .jobj [("raw", rb)]
      | _ => .jobj [("raw", rb)]
    else .jobj [("raw", rb)]
  | _ => .jobj [("raw", rb)]

/-- One handler dispatch of client.py: connect/disconnect prints are dropped,
state updates are kept exactly. -/
def processEvent (st : WsState) (ev : InEvent) : WsState :=
  match ev with
  | .chat content finishReason cits =>
    let st1 := if content ≠ "" then
      { st with full_response := st.full_response ++ content } else st
    let st2 := if cits ≠ [] then
      { st1 with citations := st1.citations ++ cits } else st1
    if finishReason = some "stop" then
      { st2 with response_complete := true, eventSet := true }
    else st2
  | .toolComplete rb =>
    { st with mcp_results := st.mcp_results ++ [parseResultBlock rb] }
  | .errEvent msg =>
    { st with error_occurred := true, error_message := msg, eventSet := true }
  | .disconnectEvt => { st with eventSet := true }

def processEvents (st : WsState) (evs : List InEvent) : WsState :=
  evs.foldl processEvent st

/-- One exchange's environment: outcomes of the fallible collaborator calls
made by send_message, and the inbound events delivered before its wait on the
response event is decided. disconnectRaises mirrors the try/except pass around
sio.disconnect and is deliberately without observable effect. -/
structure WsScenario where
  connectRaises : Option String
  connectedAfter : Bool
  emitRaises : Option String
  events : List InEvent
  disconnectRaises : Bool
  addUserRaises : Option String
  addAgentRaises : Option String

/-- Calls send_message makes on its collaborators: how many times
sio.disconnect was invoked, and the arguments of each conversation_manager
append. -/
structure WsEffects where
  disconnectCalls : Nat
  addUserCalls : List String
  addAgentCalls : List String
deriving DecidableEq, Repr

/-- The return statements at the bottom of send_message. -/
def finalizeResponse (st : WsState) : AgentResponse :=
  if st.error_occurred then { content := "", error := some st.error_message }
  else if !st.response_complete then
    { content := "", error := some "Response incomplete" }
  else
    { content := st.full_response, citations := st.citations
      mcp_results := st.mcp_results }

/-- client.py WebSocketClient.send_message. Except.error models an exception
escaping the method (the unguarded sio.emit call and the conversation_manager
appends are outside any try). The payload built between the connected check
and the emit is pure dict construction with no observable effect on any claim
and is not tracked. -/
def send_message (sc : WsScenario) (user_message : String) :
    Except String AgentResponse × WsEffects :=
  match sc.connectRaises with
  | some e =>
    (.ok { content := "", error := some ("Connection failed: " ++ e) },
     { disconnectCalls := 0, addUserCalls := [], addAgentCalls := [] })
  | none =>
    if !sc.connectedAfter then
      (.ok { content := "", error := some "Failed to connect to WebSocket endpoint" },
       { disconnectCalls := 0, addUserCalls := [], addAgentCalls := [] })
    else
      match sc.emitRaises with
      | some e =>
        (.error e, { disconnectCalls := 0, addUserCalls := [], addAgentCalls := [] })
      | none =>
        let st0 := processEvents wsInitState sc.events
        let st :=
          if !st0.eventSet then
            { st0 with error_occurred := true, error_message := "Response timed out" }
          else st0
        match sc.addUserRaises with
        | some e =>
          (.error e,
           { disconnectCalls := 1, addUserCalls := [user_message], addAgentCalls := [] })
        | none =>
          if st.full_response ≠ "" then
            match sc.addAgentRaises with
            | some e =>
              (.error e,
               { disconnectCalls := 1, addUserCalls := [user_message]
                 addAgentCalls := [st.full_response] })
            | none =>
              (.ok (finalizeResponse st),
               { disconnectCalls := 1, addUserCalls := [user_message]
                 addAgentCalls := [st.full_response] })
          else
            (.ok (finalizeResponse st),
             { disconnectCalls := 1, addUserCalls := [user_message]
               addAgentCalls := [] })

/-- Python substring membership: pat in s. -/
def containsSub (pat : List Char) : List Char → Bool
  | [] => beginsWithBy (· == ·) pat []
  | c :: cs => beginsWithBy (· == ·) pat (c :: cs) || containsSub pat cs

def strContains (s pat : String) : Bool := containsSub pat.data s.data

/-- The error-text signature that triggers the HTTP fallback in __main__.py. -/
def connectionFailureSig : String := "Connection failed"

/-- The transport-selection block of __main__.py main (mirrored in
run_agent.py interactive_mode): try streaming when requested and available;
fall back to one blocking call when the streaming result's error text contains
the connection-failure signature or when the streaming path raised. The
returned Nat counts blocking-transport calls. -/
def sendViaTransport (streamingFlag wsAvailable : Bool)
    (wsOutcome : Except String AgentResponse) (httpResult : AgentResponse) :
    AgentResponse × Nat :=
  if streamingFlag && wsAvailable then
    match wsOutcome with
    | .error _ => (httpResult, 1)
    | .ok r =>
      match r.error with
      | some e =>
        if e != "" && strContains e connectionFailureSig then (httpResult, 1)
        else (r, 0)
      | none => (r, 0)
  else (httpResult, 1)

/-- Modelled from the spec: WebSocketClient._tool_detection, which
src/tests/test_tool_execution.py calls but src/a700cli/core/client.py does not
define. Per the spec's completion-reason policy, the explicit tool_calls
finish reason is checked first, inline well-formed tool markup in the
accumulated text second, and any other terminal signal without tool markup
completes the response. Returns (tool_call_pending, response_complete). -/
def tool_detection (finishReason : String) (content : String) : Bool × Bool :=
  if finishReason == "tool_calls" then (true, false)
  else if !(parse_tool_use_blocks content).isEmpty then (true, false)
  else (false, true)

/- ------------------------------------------------------------------ -/
/- Theorems.                                                          -/
/- ------------------------------------------------------------------ -/

theorem beginsWithBy_eq_append {pat s : List Char}
    (h : beginsWithBy (fun a b => a == b) pat s = true) : ∃ t, s = pat ++ t := by
  induction pat generalizing s with
  | nil => exact ⟨s, rfl⟩
  | cons p ps ih =>
    cases s with
    | nil => simp [beginsWithBy] at h
    | cons c cs =>
      simp only [beginsWithBy, Bool.and_eq_true, beq_iff_eq] at h
      obtain ⟨t, ht⟩ := ih h.2
      exact ⟨t, by simp [h.1, ht]⟩

theorem endsWithL_eq_append {s suf : List Char} (h : endsWithL s suf = true) :
    ∃ p, s = p ++ suf := by
  unfold endsWithL at h
  obtain ⟨t, ht⟩ := beginsWithBy_eq_append h
  refine ⟨t.reverse, ?_⟩
  have := congrArg List.reverse ht
  simpa using this

theorem filterMap_eq_map_filter {α β : Type} (f : α → Option β) (p : α → Bool)
    (g : α → β) (hf : ∀ a, f a = if p a then some (g a) else none) (l : List α) :
    l.filterMap f = (l.filter p).map g := by
  induction l with
  | nil => rfl
  | cons a t ih =>
    by_cases hp : p a = true
    · simp [List.filterMap_cons, List.filter_cons, hf a, hp, ih]
    · simp only [Bool.not_eq_true] at hp
      simp [List.filterMap_cons, List.filter_cons, hf a, hp, ih]

theorem parse_one_block_eq (b : List Char) :
    parse_one_block b = if wellFormedBlock b then some (blockToolCall b) else none := by
  unfold parse_one_block wellFormedBlock blockToolCall
  cases h1 : (extractTag b "server").isEmpty <;>
    cases h2 : (extractTag b "tool").isEmpty <;> simp [h1, h2]

theorem data_mk (l : List Char) : (String.mk l).data = l := rfl

/-- Claim C10: for every base service URL string, with or without trailing
slashes and with or without an existing api suffix, the URL that execute posts
to ends with the api/mcp/execute path. -/
theorem mcp_execute_url_suffix (api_base_url : String) :
    ∃ p, (mcpExecuteUrl api_base_url).data = p ++ "/api/mcp/execute".data := by
  unfold mcpExecuteUrl mcpNormalizeBase
  generalize rstripSlash api_base_url.data = b
  by_cases h1 : endsWithL b "/api".data = true
  · obtain ⟨p, hp⟩ := endsWithL_eq_append h1
    refine ⟨p, ?_⟩
    rw [if_pos h1, data_mk, data_mk, hp, List.append_assoc]
    rfl
  · rw [if_neg h1]
    by_cases h2 : endsWithL b "/".data = true
    · obtain ⟨p, hp⟩ := endsWithL_eq_append h2
      refine ⟨p, ?_⟩
      rw [if_pos h2, data_mk, data_mk, hp, List.append_assoc, List.append_assoc]
      rfl
    · refine ⟨b, ?_⟩
      rw [if_neg h2, data_mk, data_mk, List.append_assoc]
      rfl

/-- Claim C9: the Tool Executor maps a transport fault to an error dict with
the fault description, and a non-200 acknowledgement to an error dict with the
status code and the body text; both results carry the error key, and (being a
total function of the call outcome) the executor never raises. -/
theorem execute_error_normalization (net : Except String HttpResp) :
    (∀ e, net = Except.error e →
      call_remote_mcp net = [("error", JsonVal.jstr e)])
    ∧ (∀ r, net = Except.ok r → r.status ≠ 200 →
      call_remote_mcp net =
        [("error", JsonVal.jstr ("HTTP " ++ toString r.status)),
         ("detail", JsonVal.jstr r.text)])
    ∧ (∀ e, net = Except.error e →
      ∃ v, (call_remote_mcp net).lookup "error" = some v)
    ∧ (∀ r, net = Except.ok r → r.status ≠ 200 →
      ∃ v, (call_remote_mcp net).lookup "error" = some v) := by
  refine ⟨?_, ?_, ?_, ?_⟩
  · intro e he; subst he; rfl
  · intro r hr hs; subst hr; simp [call_remote_mcp, hs]
  · intro e he; subst he; exact ⟨_, rfl⟩
  · intro r hr hs; subst hr
    refine ⟨JsonVal.jstr ("HTTP " ++ toString r.status), ?_⟩
    simp [call_remote_mcp, hs, List.lookup]

theorem execute_error_normalization_witness :
    call_remote_mcp (Except.ok ⟨500, "Server error", Except.ok JsonVal.null⟩) =
      [("error", JsonVal.jstr "HTTP 500"), ("detail", JsonVal.jstr "Server error")] :=
  (execute_error_normalization _).2.1 _ rfl (by decide)

/-- Claim C7: parse_tool_use_blocks returns exactly the well-formed blocks'
ToolCalls, in the order the blocks appear (blocks missing server or tool are
skipped without effect on the rest); it is a total function, and empty input
or input with no blocks yields the empty list. -/
theorem parse_blocks_wellformed_in_order (content : String) :
    parse_tool_use_blocks content
      = ((findToolUseBlocks content.data).filter wellFormedBlock).map blockToolCall
    ∧ parse_tool_use_blocks "" = []
    ∧ (findToolUseBlocks content.data = [] → parse_tool_use_blocks content = []) := by
  refine ⟨filterMap_eq_map_filter _ _ _ parse_one_block_eq _, rfl, ?_⟩
  intro h
  unfold parse_tool_use_blocks
  rw [h]
  rfl

theorem parse_blocks_wellformed_in_order_witness :
    parse_tool_use_blocks "hello world" = [] :=
  (parse_blocks_wellformed_in_order "hello world").2.2 rfl

/-- Claim C8: whenever _parse_one_block succeeds, an arguments field whose
stripped text does not decode to a JSON object yields the raw-wrapped
arguments dict, and an absent arguments field yields the empty dict. -/
theorem parse_arguments_fallback (b : List Char) (tc : ToolCall)
    (h : parse_one_block b = some tc) :
    ((extractTag b "arguments" ≠ []) →
      (∀ kvs, jsonLoads ⟨pyStrip (extractTag b "arguments")⟩ ≠ some (JsonVal.jobj kvs)) →
      tc.arguments = [("raw", JsonVal.jstr ⟨extractTag b "arguments"⟩)])
    ∧ (extractTag b "arguments" = [] → tc.arguments = []) := by
  rw [parse_one_block_eq] at h
  by_cases hwf : wellFormedBlock b = true
  · rw [if_pos hwf] at h
    have htc : tc = blockToolCall b := (Option.some.inj h).symm
    subst htc
    constructor
    · intro hne hobj
      unfold blockToolCall
      cases hargs : (extractTag b "arguments").isEmpty
      · simp only [Bool.false_eq_true, if_false]
        cases hj : jsonLoads ⟨pyStrip (extractTag b "arguments")⟩ with
        | none => simp [hj, hne]
        | some v =>
          cases v with
          | jobj kvs => exact absurd hj (hobj kvs)
          | null => simp [hj, hne]
          | jbool x => simp [hj, hne]
          | jnum x => simp [hj, hne]
          | jstr x => simp [hj, hne]
          | jarr xs => simp [hj, hne]
      · exact absurd (List.isEmpty_iff.mp hargs) hne
    · intro hemp
      unfold blockToolCall
      simp [hemp]
  · rw [if_neg hwf] at h
    cases h

def c8Block : List Char :=
  "<tool_use><server>s</server><tool>t</tool><arguments>[1,2]</arguments></tool_use>".data

theorem parse_arguments_fallback_witness :
    ∃ tc, parse_one_block c8Block = some tc
      ∧ tc.arguments = [("raw", JsonVal.jstr "[1,2]")] := by
  refine ⟨blockToolCall c8Block, rfl, ?_⟩
  refine (parse_arguments_fallback c8Block (blockToolCall c8Block) rfl).1 ?_ ?_
  · intro h
    cases h
  · intro kvs hk
    rw [show jsonLoads ⟨pyStrip (extractTag c8Block "arguments")⟩
          = some (JsonVal.jarr [JsonVal.jnum "1", JsonVal.jnum "2"]) from rfl] at hk
    exact JsonVal.noConfusion (Option.some.inj hk)

/-- Claim C1: a partial-content event whose finish_reason is tool_calls yields
tool_call_pending true and response_complete false, regardless of content. -/
theorem tool_calls_always_pending (content : String) :
    tool_detection "tool_calls" content = (true, false) := rfl

/-- Claim C2: a partial-content event whose finish_reason is end_turn, when
the accumulated text contains no well-formed tool_use block, yields
response_complete true and tool_call_pending false. -/
theorem end_turn_without_markup_completes (content : String)
    (h : parse_tool_use_blocks content = []) :
    tool_detection "end_turn" content = (false, true) := by
  unfold tool_detection
  rw [h]
  rfl

theorem end_turn_without_markup_completes_witness :
    tool_detection "end_turn" "Just text." = (false, true) :=
  end_turn_without_markup_completes "Just text." rfl

/-- Claim C3: with streaming requested and available, a streaming result whose
error text contains the connection-failure signature is replaced by the result
of exactly one blocking call, as is any exception raised while constructing or
using the streaming client; any other streaming result is returned unchanged
with no blocking call. -/
theorem streaming_fallback_policy (http : AgentResponse) :
    (∀ ex, sendViaTransport true true (Except.error ex) http = (http, 1))
    ∧ (∀ r e, r.error = some e → strContains e connectionFailureSig = true →
        sendViaTransport true true (Except.ok r) http = (http, 1))
    ∧ (∀ r e, r.error = some e → strContains e connectionFailureSig = false →
        sendViaTransport true true (Except.ok r) http = (r, 0))
    ∧ (∀ r, r.error = none → sendViaTransport true true (Except.ok r) http = (r, 0)) := by
  refine ⟨fun ex => rfl, ?_, ?_, ?_⟩
  · intro r e hr hsig
    have hne : e ≠ "" := by
      intro he
      rw [he] at hsig
      exact absurd hsig (by decide)
    unfold sendViaTransport
    simp [hr, hsig, hne]
  · intro r e hr hsig
    unfold sendViaTransport
    simp [hr, hsig]
  · intro r hr
    unfold sendViaTransport
    simp [hr]

theorem streaming_fallback_policy_witness :
    sendViaTransport true true
        (Except.ok { content := "", error := some "Connection failed: boom" })
        { content := "ok" }
      = ({ content := "ok" }, 1) :=
  (streaming_fallback_policy { content := "ok" }).2.1
    { content := "", error := some "Connection failed: boom" }
    "Connection failed: boom" rfl (by decide)

/-- A completion or error event in the sense of the timeout claim. -/
def isCompletionOrErrorEvt : InEvent → Bool
  | .chat _ fr _ => fr == some "stop"
  | .errEvent _ => true
  | _ => false

def timeoutCexScenario : WsScenario :=
  { connectRaises := none, connectedAfter := true, emitRaises := none
    events := [InEvent.disconnectEvt], disconnectRaises := false
    addUserRaises := none, addAgentRaises := none }

def quietScenario : WsScenario :=
  { connectRaises := none, connectedAfter := true, emitRaises := none
    events := [], disconnectRaises := false
    addUserRaises := none, addAgentRaises := none }

def connectFailScenario : WsScenario :=
  { connectRaises := some "refused", connectedAfter := false, emitRaises := none
    events := [], disconnectRaises := false
    addUserRaises := none, addAgentRaises := none }

def emitFaultScenario : WsScenario :=
  { connectRaises := none, connectedAfter := true, emitRaises := some "emit failed"
    events := [], disconnectRaises := false
    addUserRaises := none, addAgentRaises := none }

/-- Claim C4 counterexample: an exchange in which no completion or error event
arrives within the timeout, but a disconnect event does, returns the error
"Response incomplete" instead of "Response timed out" (the disconnect handler
sets the response event and releases the wait early). -/
theorem timeout_error_counterexample :
    timeoutCexScenario.events.all (fun e => !isCompletionOrErrorEvt e) = true
    ∧ (send_message timeoutCexScenario "hi").1
        = Except.ok { content := "", citations := []
                      error := some "Response incomplete", mcp_results := [] } :=
  ⟨rfl, rfl⟩

/-- Claim C4 (amended): if the response event is never set while the events
delivered within the timeout are processed — no completion, error, or
disconnect event — then send_message returns a result whose error equals
"Response timed out" and the connection is torn down exactly once before
returning, provided the connection was established, the emit succeeded and
conversation persistence does not fault. -/
theorem timeout_result_and_teardown (sc : WsScenario) (msg : String)
    (hc : sc.connectRaises = none) (hcon : sc.connectedAfter = true)
    (he : sc.emitRaises = none) (hu : sc.addUserRaises = none)
    (ha : sc.addAgentRaises = none)
    (hw : (processEvents wsInitState sc.events).eventSet = false) :
    (∃ r, (send_message sc msg).1 = Except.ok r
      ∧ r.error = some "Response timed out")
    ∧ (send_message sc msg).2.disconnectCalls = 1 := by
  unfold send_message
  rw [hc, hcon, he, hu, ha]
  simp only [hw, Bool.not_false, if_true, Bool.true_eq_false]
  by_cases hf : (processEvents wsInitState sc.events).full_response = ""
  · simp [hf, finalizeResponse]
  · simp [hf, finalizeResponse]

theorem timeout_result_and_teardown_witness :
    (∃ r, (send_message quietScenario "hello").1 = Except.ok r
      ∧ r.error = some "Response timed out")
    ∧ (send_message quietScenario "hello").2.disconnectCalls = 1 :=
  timeout_result_and_teardown quietScenario "hello" rfl rfl rfl rfl rfl rfl

/-- Claim C5 counterexample: the connection-failure exit path of send_message
returns an error result with no teardown and no conversation-manager call at
all, so not every exit path appends the user message. -/
theorem exit_path_effects_counterexample :
    (send_message connectFailScenario "hi").1
      = Except.ok { content := "", citations := []
                    error := some "Connection failed: refused", mcp_results := [] }
    ∧ (send_message connectFailScenario "hi").2
      = { disconnectCalls := 0, addUserCalls := [], addAgentCalls := [] } :=
  ⟨rfl, rfl⟩

/-- Claim C5 (amended): every exit path reached after a successful connection
and emit (complete, error, timed out) performs connection teardown exactly
once before returning, calls add_user_message exactly once with the user's
message, and calls add_agent_message exactly once with the final assembled
text exactly when text was accumulated — given that the conversation manager
does not fault. The connection-failure exits return without teardown or
conversation-log calls, and an emit fault raises without either. -/
theorem exit_path_effects (sc : WsScenario) (msg : String)
    (hc : sc.connectRaises = none) (hcon : sc.connectedAfter = true)
    (he : sc.emitRaises = none) (hu : sc.addUserRaises = none)
    (ha : sc.addAgentRaises = none) :
    (send_message sc msg).2
      = { disconnectCalls := 1, addUserCalls := [msg]
          addAgentCalls :=
            if (processEvents wsInitState sc.events).full_response ≠ "" then
              [(processEvents wsInitState sc.events).full_response]
            else [] }
    ∧ ∃ r, (send_message sc msg).1 = Except.ok r := by
  unfold send_message
  rw [hc, hcon, he, hu, ha]
  by_cases hev : (processEvents wsInitState sc.events).eventSet
  · simp only [hev, Bool.not_true, Bool.false_eq_true, if_false]
    by_cases hf : (processEvents wsInitState sc.events).full_response = ""
    · simp [hf]
    · simp [hf]
  · simp only [Bool.not_eq_true] at hev
    simp only [hev, Bool.not_false, if_true]
    by_cases hf : (processEvents wsInitState sc.events).full_response = ""
    · simp [hf]
    · simp [hf]

theorem exit_path_effects_witness :
    (send_message quietScenario "hello").2
      = { disconnectCalls := 1, addUserCalls := ["hello"], addAgentCalls := [] }
    ∧ ∃ r, (send_message quietScenario "hello").1 = Except.ok r := by
  have h := exit_path_effects quietScenario "hello" rfl rfl rfl rfl rfl
  exact ⟨by rw [h.1]; rfl, h.2⟩

/-- Claim C6 counterexample: a fault raised by the unguarded sio.emit call
escapes send_message as an exception; no AgentResponse is returned. -/
theorem never_raises_counterexample :
    (send_message emitFaultScenario "hi").1 = Except.error "emit failed" := rfl

theorem send_message_ok_of_benign (sc : WsScenario) (msg : String)
    (hc : sc.connectRaises = none) (hcon : sc.connectedAfter = true)
    (he : sc.emitRaises = none) (hu : sc.addUserRaises = none)
    (ha : sc.addAgentRaises = none) :
    ∃ r, (send_message sc msg).1 = Except.ok r := by
  unfold send_message
  rw [hc, hcon, he, hu, ha]
  by_cases hev : (processEvents wsInitState sc.events).eventSet
  · simp only [hev, Bool.not_true, Bool.false_eq_true, if_false]
    by_cases hf : (processEvents wsInitState sc.events).full_response = ""
    · simp [hf]
    · simp [hf]
  · simp only [Bool.not_eq_true] at hev
    simp only [hev, Bool.not_false, if_true]
    by_cases hf : (processEvents wsInitState sc.events).full_response = ""
    · simp [hf]
    · simp [hf]

/-- Claim C6 (amended): send_message returns an AgentResponse — capturing a
connection-establishment fault in its error field — whenever the emit call and
the conversation-manager appends do not raise; a fault from emit or from
conversation persistence propagates past its boundary (where the Transport
Selector treats it as a connection failure). -/
theorem no_raise_when_collaborators_ok (sc : WsScenario) (msg : String)
    (he : sc.emitRaises = none) (hu : sc.addUserRaises = none)
    (ha : sc.addAgentRaises = none) :
    ∃ r, (send_message sc msg).1 = Except.ok r
      ∧ ∀ e, sc.connectRaises = some e →
          r.error = some ("Connection failed: " ++ e) := by
  cases hc : sc.connectRaises with
  | some e =>
    refine ⟨{ content := "", error := some ("Connection failed: " ++ e) }, ?_, ?_⟩
    · unfold send_message
      rw [hc]
    · intro e2 he2
      cases Option.some.inj he2
      rfl
  | none =>
    cases hcon : sc.connectedAfter with
    | false =>
      refine ⟨{ content := ""
                error := some "Failed to connect to WebSocket endpoint" }, ?_, ?_⟩
      · unfold send_message
        rw [hc, hcon]
        rfl
      · intro e2 he2
        exact Option.noConfusion he2
    | true =>
      obtain ⟨r, hr⟩ := send_message_ok_of_benign sc msg hc hcon he hu ha
      exact ⟨r, hr, fun e2 he2 => Option.noConfusion he2⟩

theorem no_raise_when_collaborators_ok_witness :
    ∃ r, (send_message connectFailScenario "hello").1 = Except.ok r
      ∧ ∀ e, connectFailScenario.connectRaises = some e →
          r.error = some ("Connection failed: " ++ e) :=
  no_raise_when_collaborators_ok connectFailScenario "hello" rfl rfl rfl
